import Mathlib

/-!
Shallow embedding of the schema-migration engine of this repository
(`src/backend_lib/infrastructure/scripts`): the orchestrator
`MigrationRunner` (migrations/engine/orchestrator/migration-runner.js),
the concrete `SupabaseDatabaseAdapter` (engine/adapters/supabase-adapter.js),
the factory (engine/factory/adapter-factory.js), the workflow entry point
(engine/index.js) and the fatal-error helper (exceptions/error-handler.js).

Conventions of the embedding:
* Migration file content is opaque SQL text; its effect on the database is
  modelled by the inductive `Sql` of schema change-sets together with the
  interpreter `execSql` (create the tracking relation, create an
  application table, sequence, no-op, failing SQL).
* JavaScript string operations are carried out on `String.data`
  (`List Char`), because those reduce inside the kernel; `endsWith`,
  `startsWith` and `includes` become `isSuffixOf`, `isPrefixOf` and an
  infix test on character lists.
* `console.log` / `console.error` lines are modelled as structured
  `LogMsg` events appended to the state; interpolated counters of the
  summary lines are elided, file names are kept because the error and
  skip messages attribute behaviour to a file.
* `errorHandler` (which prints and calls `process.exit(1)`) is the
  `Failure.exit` outcome; a thrown and propagated JavaScript error is
  `Failure.err`.
-/

namespace MigrationEngine

/-- Opaque migration SQL content, modelled as the schema change-sets the
engine applies: the bootstrap statement creating the tracking relation,
creation of an application table (failing, like plain `CREATE TABLE`,
when the relation already exists), sequencing, a no-op, and invalid SQL
that raises with a given message. -/
inductive Sql
  | createTrackingTable
  | createTable (t : String)
  | seq (a b : Sql)
  | noop
  | fail (msg : String)
deriving DecidableEq

/-- State of the target database: whether the tracking relation
`public.schema_migrations` exists, its `migration_name` rows, and the
application tables present. -/
structure Db where
  tracking : Bool
  records : List String
  tables : List String
deriving DecidableEq

/-- Interpreter for migration SQL content. A multi-statement text sent
through one round trip runs in an implicit transaction, so a failing
change-set leaves the database unchanged (the caller keeps the old
state on `Except.error`). -/
def execSql : Sql → Db → Except String Db
  | Sql.createTrackingTable, db =>
      if db.tracking then Except.error "relation \"schema_migrations\" already exists"
      else Except.ok { db with tracking := true }
  | Sql.createTable t, db =>
      if t ∈ db.tables then Except.error ("relation \"" ++ t ++ "\" already exists")
      else Except.ok { db with tables := t :: db.tables }
  | Sql.seq a b, db =>
      match execSql a db with
      | Except.ok db1 => execSql b db1
      | Except.error m => Except.error m
  | Sql.noop, db => Except.ok db
  | Sql.fail msg, _ => Except.error msg

/-- Console lines the runner emits, as structured events; each
constructor stands for one `console.log`/`console.error` call of the
source (file-name interpolations kept, counters elided). -/
inductive LogMsg
  | info (s : String)
  | creatingTable
  | tableCreated
  | executing (f : String)
  | executedOk
  | skipping (f : String)
  | errorExecuting (f : String)
deriving DecidableEq

/-- Failure outcome of an operation: `exit` is `errorHandler` printing
the message and calling `process.exit(1)`; `err` is a JavaScript error
thrown and propagated to the caller. -/
inductive Failure
  | exit (msg : String)
  | err (msg : String)
deriving DecidableEq

/-- Process-local state threaded through the runner: the adapter
connection handle (`this.sql` being non-null), the database, and the
console log. -/
structure St where
  conn : Bool
  db : Db
  log : List LogMsg
deriving DecidableEq

/-- Append one console event. -/
def addLog (st : St) (m : LogMsg) : St := { st with log := st.log ++ [m] }

instance {ε α : Type} [DecidableEq ε] [DecidableEq α] : DecidableEq (Except ε α) := fun a b =>
  match a, b with
  | Except.ok x, Except.ok y =>
      if h : x = y then isTrue (by rw [h]) else isFalse (fun c => h (Except.ok.inj c))
  | Except.error x, Except.error y =>
      if h : x = y then isTrue (by rw [h]) else isFalse (fun c => h (Except.error.inj c))
  | Except.ok _, Except.error _ => isFalse (fun c => Except.noConfusion c)
  | Except.error _, Except.ok _ => isFalse (fun c => Except.noConfusion c)

/-- Result of a stateful operation: an `Except` outcome paired with the
state it left behind. -/
abbrev Res (α : Type) : Type := Except Failure α × St

/-- JavaScript `error.message.includes(sub)`, on character lists. -/
def includesSub (msg sub : String) : Bool :=
  msg.data.tails.any (fun t => sub.data.isPrefixOf t)

/-! ### SupabaseDatabaseAdapter (engine/adapters/supabase-adapter.js) -/

/-- `connect()`: a no-op when `this.sql` is already set, otherwise
initializes the client. -/
def connect (st : St) : St := if st.conn then st else { st with conn := true }

/-- `disconnect()`: ends and clears the client when set. -/
def disconnect (st : St) : St := { st with conn := false }

/-- `testConnection()`: issues `SELECT 1`; `false` when the client is
not initialized (connectivity faults are outside the model). -/
def testConnection (st : St) : Bool := st.conn

/-- `tableExists(tableName, schema)`: looks the relation up in
`information_schema.tables`; the tracking relation is governed by
`Db.tracking`, application tables by `Db.tables`. -/
def tableExists (db : Db) (tableName schemaName : String) : Bool :=
  if tableName = "schema_migrations" && schemaName = "public" then db.tracking
  else db.tables.contains tableName

/-- Rows of `SELECT migration_name FROM public.schema_migrations WHERE
migration_name = ANY(xs)`; the relation being absent raises the
postgres error naming it. -/
def membershipRows (db : Db) (xs : List String) : Except String (List String) :=
  if db.tracking then Except.ok (db.records.filter (fun r => decide (r ∈ xs)))
  else Except.error "relation \"public.schema_migrations\" does not exist"

/-- Parameter values passed to `query(queryText, params)`. -/
inductive JsParam
  | arr (xs : List String)
  | scalar (v : String)
deriving DecidableEq

/-- `query(queryText, params)` of the Supabase adapter: when `params`
is non-empty and `params[0]` is an array it runs the fixed membership
query through the template tag, never consulting `queryText`; the two
`sql.unsafe` fallback branches delegate to the external postgres
driver, abstracted here as the `fallback` argument (the orchestrator
only ever reaches the array branch). -/
def SupabaseQuery (fallback : String → List JsParam → Db → Except String (List String))
    (db : Db) (queryText : String) (params : List JsParam) : Except String (List String) :=
  match params with
  | JsParam.arr xs :: _ => membershipRows db xs
  | [] => fallback queryText [] db
  | ps => fallback queryText ps db

/-- Modelled from the spec: the raw parameterized-query fallback of
`query` calls the external `postgres` driver, which is not part of the
repository; the orchestrator never reaches it (it always passes the
names array first), so its outcome is an opaque error value. -/
def rawUnsafe : String → List JsParam → Db → Except String (List String) :=
  fun _ _ _ => Except.error "raw parameterized query outside the model"

/-- `insertMigrationRecord(name)` as exposed inside `transaction`:
`INSERT ... ON CONFLICT (migration_name) DO NOTHING` into the tracking
relation, raising when the relation does not exist. -/
def insertMigrationRecord (name : String) (db : Db) : Except String Db :=
  if db.tracking then
    Except.ok (if name ∈ db.records then db else { db with records := db.records ++ [name] })
  else Except.error "relation \"public.schema_migrations\" does not exist"

/-! ### MigrationRunner (migrations/engine/orchestrator/migration-runner.js) -/

/-- Migration source directory: `none` when the directory does not
exist, otherwise the directory entries as name–content pairs (the
enumeration order is whatever the filesystem returns). -/
def Fsd : Type := Option (List (String × Sql))

/-- `fs.existsSync` + `fs.readFileSync` for one file of the migrations
directory. -/
def fsLookup (fsd : Fsd) (name : String) : Option Sql :=
  match fsd with
  | none => none
  | some entries => (entries.find? (fun e => decide (e.1 = name))).map Prod.snd

/-- Designated bootstrap file that creates the tracking relation. -/
def bootstrapFile : String := "000_migrations_table.sql"

/-- The filter of `getMigrationFiles`: keep files ending in `.sql` and
not starting with `_`. -/
def migrationFilter (f : String) : Bool :=
  ".sql".data.isSuffixOf f.data && !("_".data.isPrefixOf f.data)

/-- Ascending name order used by `.sort()` (lexicographic on the
characters of the name). -/
def nameLe (a b : String) : Prop := a.data ≤ b.data

instance : DecidableRel nameLe := fun a b => inferInstanceAs (Decidable (a.data ≤ b.data))

instance : IsTotal String nameLe := ⟨fun a b => le_total a.data b.data⟩

instance : IsTrans String nameLe := ⟨fun _ _ _ h1 h2 => le_trans h1 h2⟩

instance : IsAntisymm String nameLe :=
  ⟨fun a b h1 h2 => by cases a; cases b; exact congrArg String.mk (le_antisymm h1 h2)⟩

/-- `getMigrationFiles()`: fatal when the directory does not exist,
otherwise the `.sql` non-underscore entries sorted ascending by name. -/
def getMigrationFiles (fsd : Fsd) : Except Failure (List String) :=
  match fsd with
  | none => Except.error (Failure.exit "Error: Migrations directory not found")
  | some entries =>
      Except.ok (List.insertionSort nameLe ((entries.map Prod.fst).filter migrationFilter))

/-- `ensureMigrationsTable()`: when the tracking relation is absent,
read the designated bootstrap file (fatal when missing) and execute its
content through `executeRaw` — outside any transaction and without
inserting a record. -/
def ensureMigrationsTable (fsd : Fsd) (st : St) : Res Unit :=
  if tableExists st.db "schema_migrations" "public" then (Except.ok (), st)
  else
    match fsLookup fsd bootstrapFile with
    | none =>
        (Except.error (Failure.exit
          "Error: Migrations table does not exist and 000_migrations_table.sql file not found. Please create 000_migrations_table.sql in your migrations directory."),
          addLog st LogMsg.creatingTable)
    | some content =>
        match execSql content st.db with
        | Except.error m => (Except.error (Failure.err m), addLog st LogMsg.creatingTable)
        | Except.ok db1 =>
            (Except.ok (),
              addLog { addLog st LogMsg.creatingTable with db := db1 } LogMsg.tableCreated)

/-- Query text the orchestrator hands to `adapter.query` for the batch
diff (the Supabase adapter ignores it on the array branch). -/
def batchDiffQueryText : String :=
  "SELECT migration_name FROM public.schema_migrations WHERE migration_name = ANY($1)"

/-- Catch handler of `getExecutedMigrations`, factored over the outcome
of the adapter query: an error whose message includes `does not exist`
re-runs `ensureMigrationsTable` and yields the empty set; any other
error goes to `errorHandler` (fatal). -/
def getExecutedMigrationsFrom (fsd : Fsd) (qres : Except String (List String)) (st : St) :
    Res (List String) :=
  match qres with
  | Except.ok rows => (Except.ok rows, st)
  | Except.error m =>
      if includesSub m "does not exist" then
        match ensureMigrationsTable fsd st with
        | (Except.ok _, st1) => (Except.ok [], st1)
        | (Except.error f, st1) => (Except.error f, st1)
      else (Except.error (Failure.exit ("Error: " ++ m)), st)

/-- `getExecutedMigrations(migrationNames)`: empty input short-circuits
to the empty set; otherwise one batch query through the adapter, with
the catch handler above. -/
def getExecutedMigrations (fsd : Fsd) (names : List String) (st : St) : Res (List String) :=
  if names.isEmpty then (Except.ok [], st)
  else getExecutedMigrationsFrom fsd
    (SupabaseQuery rawUnsafe st.db batchDiffQueryText [JsParam.arr names]) st

/-- `shouldSkipMigration(file, executedSet)`: the designated bootstrap
file is skipped when the tracking relation already exists; otherwise a
file is skipped when it is in the pre-fetched executed set. -/
def shouldSkipMigration (file : String) (executedSet : List String) (db : Db) : Bool :=
  (decide (file = bootstrapFile) && tableExists db "schema_migrations" "public")
    || executedSet.contains file

/-- Body of the transaction callback of `executeMigration`: execute the
raw SQL, then insert the Migration Record; commits on success, and a
failure rolls the whole transaction back (the caller keeps the old
database state). -/
def txnBody (content : Sql) (name : String) (db : Db) : Except String Db :=
  match execSql content db with
  | Except.error m => Except.error m
  | Except.ok db1 => insertMigrationRecord name db1

/-- `executeMigration(migrationName, filePath)`: log, read the file,
run the transaction; a thrown error propagates with the database rolled
back. -/
def executeMigration (fsd : Fsd) (name : String) (st : St) : Res Unit :=
  match fsLookup fsd name with
  | none =>
      (Except.error (Failure.err ("ENOENT: no such file or directory, open " ++ name)),
        addLog st (LogMsg.executing name))
  | some content =>
      match txnBody content name st.db with
      | Except.error m => (Except.error (Failure.err m), addLog st (LogMsg.executing name))
      | Except.ok db1 =>
          (Except.ok (),
            addLog { addLog st (LogMsg.executing name) with db := db1 } LogMsg.executedOk)

/-- `processMigrationFiles(files, executedSet)`: walk the files in
order, counting skips and executions; the catch block logs the failing
file name (`Error executing <file>:`) and rethrows, so the first
failure aborts the remainder. -/
def processMigrationFiles (fsd : Fsd) (executedSet : List String) :
    List String → Nat → Nat → St → Res (Nat × Nat)
  | [], ex, sk, st => (Except.ok (ex, sk), st)
  | f :: rest, ex, sk, st =>
      if shouldSkipMigration f executedSet st.db then
        processMigrationFiles fsd executedSet rest ex (sk + 1) (addLog st (LogMsg.skipping f))
      else
        match executeMigration fsd f st with
        | (Except.ok _, st1) => processMigrationFiles fsd executedSet rest (ex + 1) sk st1
        | (Except.error e, st1) => (Except.error e, addLog st1 (LogMsg.errorExecuting f))

/-- `connectToDatabase()`: connect, then `testConnection`, a `false`
result being fatal. -/
def connectToDatabase (st : St) : Res Unit :=
  if testConnection (connect (addLog st (LogMsg.info "Connecting to database..."))) then
    (Except.ok (),
      addLog (connect (addLog st (LogMsg.info "Connecting to database...")))
        (LogMsg.info "Connected successfully!"))
  else
    (Except.error (Failure.exit "Error: Failed to connect to database"),
      connect (addLog st (LogMsg.info "Connecting to database...")))

/-- `printSummary` (counters elided from the event). -/
def printSummary (st : St) : St := addLog st (LogMsg.info "Migration process completed!")

/-- `run()`: connect, ensure the tracking table, discover files (an
empty source ends with `executed=0, skipped=0`), batch-diff, process,
summarize. -/
def run (fsd : Fsd) (st : St) : Res (Nat × Nat) :=
  match connectToDatabase (addLog st (LogMsg.info "Starting migration process...")) with
  | (Except.error f, st1) => (Except.error f, st1)
  | (Except.ok _, st1) =>
    match ensureMigrationsTable fsd st1 with
    | (Except.error f, st2) => (Except.error f, st2)
    | (Except.ok _, st2) =>
      match getMigrationFiles fsd with
      | Except.error f => (Except.error f, st2)
      | Except.ok files =>
        if files.isEmpty then
          (Except.ok (0, 0), addLog st2 (LogMsg.info "No migration files found"))
        else
          match getExecutedMigrations fsd files
              (addLog st2 (LogMsg.info "Found migration file(s)")) with
          | (Except.error f, st4) => (Except.error f, st4)
          | (Except.ok executedSet, st4) =>
            match processMigrationFiles fsd executedSet files 0 0 st4 with
            | (Except.error f, st5) => (Except.error f, st5)
            | (Except.ok (ex, sk), st5) => (Except.ok (ex, sk), printSummary st5)

/-- `cleanup()`: close the adapter connection. -/
def cleanup (st : St) : St := disconnect st

/-! ### AdapterFactory and the workflow entry point (engine/index.js) -/

/-- Lower-casing of an ASCII character (`folderName.toLowerCase()`). -/
def lowerChar (c : Char) : Char :=
  if 'A' ≤ c ∧ c ≤ 'Z' then Char.ofNat (c.toNat + 32) else c

/-- `AdapterFactory.create(folderName, ...)`: the `supabase` case
builds the (single modelled) adapter; every other identifier goes to
`errorHandler` (fatal, no connection attempted). -/
def adapterFactoryCreate (folderName : String) : Except Failure Unit :=
  if folderName.data.map lowerChar = "supabase".data then Except.ok ()
  else Except.error (Failure.exit ("Error: Unsupported database type: " ++ folderName))

/-- `executeMigrationWorkflow(folderName, connectionString,
migrationsDir)`: create the adapter, run the migrations, and — only
after a successful `run()` — call `cleanup()`; a failure of `run`
propagates without cleanup (there is no try/finally in the source). -/
def executeMigrationWorkflow (folderName : String) (fsd : Fsd) (st : St) : Res (Nat × Nat) :=
  match adapterFactoryCreate folderName with
  | Except.error f => (Except.error f, st)
  | Except.ok _ =>
      match run fsd st with
      | (Except.ok r, st1) => (Except.ok r, cleanup st1)
      | (Except.error f, st1) => (Except.error f, st1)

/-! ### Concrete scenarios used in the testable properties -/

/-- Fresh target database: no tracking relation, no rows, no tables. -/
def freshDb : Db := ⟨false, [], []⟩

/-- Initial state before any run: not connected, fresh database, empty
console. -/
def st0 : St := ⟨false, freshDb, []⟩

/-- Fresh-database scenario source: the designated bootstrap file plus
one migration creating a `widgets` table. -/
def fsFresh : Fsd :=
  some [(bootstrapFile, Sql.createTrackingTable),
    ("001_create_widgets.sql", Sql.createTable "widgets")]

/-- Source whose second migration is invalid SQL. -/
def fsBoom : Fsd :=
  some [(bootstrapFile, Sql.createTrackingTable), ("001_bad.sql", Sql.fail "boom")]

/-- Partial-failure scenario source: bootstrap, a valid migration, an
invalid one. -/
def fsPartial : Fsd :=
  some [(bootstrapFile, Sql.createTrackingTable),
    ("001_ok.sql", Sql.createTable "widgets"), ("002_bad.sql", Sql.fail "syntax error")]

/-- A connected state over a database that has the tracking relation
and nothing else. -/
def stTracked : St := ⟨true, ⟨true, [], []⟩, []⟩

/-- A connected state over a database without the tracking relation. -/
def stUntracked : St := ⟨true, ⟨false, [], []⟩, []⟩

/-! ### Basic lemmas about the database operations -/

theorem execSql_records {s : Sql} {db db1 : Db} (h : execSql s db = Except.ok db1) :
    db1.records = db.records := by
  induction s generalizing db db1 with
  | createTrackingTable =>
      unfold execSql at h
      split at h
      · exact absurd h (by simp)
      · cases h; rfl
  | createTable t =>
      unfold execSql at h
      split at h
      · exact absurd h (by simp)
      · cases h; rfl
  | seq a b iha ihb =>
      unfold execSql at h
      split at h
      · next db2 hm => exact (ihb h).trans (iha hm)
      · exact absurd h (by simp)
  | noop => cases h; rfl
  | fail msg => exact absurd h (by simp [execSql])

theorem execSql_tracking {s : Sql} {db db1 : Db} (h : execSql s db = Except.ok db1)
    (ht : db.tracking = true) : db1.tracking = true := by
  induction s generalizing db db1 with
  | createTrackingTable =>
      unfold execSql at h
      split at h
      · exact absurd h (by simp)
      · cases h
  | createTable t =>
      unfold execSql at h
      split at h
      · exact absurd h (by simp)
      · cases h; exact ht
  | seq a b iha ihb =>
      unfold execSql at h
      split at h
      · next db2 hm => exact ihb h (iha hm ht)
      · exact absurd h (by simp)
  | noop => cases h; exact ht
  | fail msg => exact absurd h (by simp [execSql])

theorem insertMigrationRecord_ok {n : String} {db db1 : Db}
    (h : insertMigrationRecord n db = Except.ok db1) :
    db.tracking = true ∧ db1.tracking = true ∧ n ∈ db1.records ∧
      db.records ⊆ db1.records ∧ db1.tables = db.tables := by
  unfold insertMigrationRecord at h
  split at h
  · next ht =>
      split at h
      · next hmem => cases h; exact ⟨ht, ht, hmem, fun a ha => ha, rfl⟩
      · cases h
        refine ⟨ht, ht, ?_, fun a ha => ?_, rfl⟩
        · simp
        · simp [ha]
  · exact absurd h (by simp)

theorem txnBody_ok {c : Sql} {n : String} {db db1 : Db}
    (h : txnBody c n db = Except.ok db1) :
    db1.tracking = true ∧ n ∈ db1.records ∧ db.records ⊆ db1.records := by
  unfold txnBody at h
  split at h
  · exact absurd h (by simp)
  · next db2 hs =>
      obtain ⟨_, h1, h2, h3, _⟩ := insertMigrationRecord_ok h
      exact ⟨h1, h2, fun a ha => h3 ((execSql_records hs) ▸ ha)⟩

theorem tableExists_tracking (db : Db) :
    tableExists db "schema_migrations" "public" = db.tracking := rfl

theorem shouldSkip_bootstrap {executedSet : List String} {db : Db} (ht : db.tracking = true) :
    shouldSkipMigration bootstrapFile executedSet db = true := by
  unfold shouldSkipMigration
  rw [tableExists_tracking, ht]
  simp

theorem contains_iff_mem {l : List String} {a : String} : l.contains a = true ↔ a ∈ l := by
  simp [List.contains, List.elem_iff]

/-! ### Lemmas about the stateful adapter and runner operations -/

theorem addLog_db (st : St) (m : LogMsg) : (addLog st m).db = st.db := rfl

theorem addLog_conn (st : St) (m : LogMsg) : (addLog st m).conn = st.conn := rfl


/-! ### Evaluation equations for the stateful operations -/

theorem executeMigration_eq_none {fsd : Fsd} {n : String} (st : St)
    (hl : fsLookup fsd n = none) :
    executeMigration fsd n st =
      (Except.error (Failure.err ("ENOENT: no such file or directory, open " ++ n)),
        addLog st (LogMsg.executing n)) := by
  unfold executeMigration
  rw [hl]

theorem executeMigration_eq_error {fsd : Fsd} {n : String} {c : Sql} {m : String} (st : St)
    (hl : fsLookup fsd n = some c) (hx : txnBody c n st.db = Except.error m) :
    executeMigration fsd n st =
      (Except.error (Failure.err m), addLog st (LogMsg.executing n)) := by
  unfold executeMigration
  rw [hl]
  dsimp only
  rw [hx]

theorem executeMigration_eq_ok {fsd : Fsd} {n : String} {c : Sql} {db1 : Db} (st : St)
    (hl : fsLookup fsd n = some c) (hx : txnBody c n st.db = Except.ok db1) :
    executeMigration fsd n st =
      (Except.ok (), ⟨st.conn, db1, st.log ++ [LogMsg.executing n, LogMsg.executedOk]⟩) := by
  unfold executeMigration
  rw [hl]
  dsimp only
  rw [hx]
  simp [addLog]

theorem ensure_eq_skip {fsd : Fsd} {st : St} (ht : st.db.tracking = true) :
    ensureMigrationsTable fsd st = (Except.ok (), st) := by
  unfold ensureMigrationsTable
  rw [tableExists_tracking, ht]
  simp

theorem ensure_eq_missing {fsd : Fsd} {st : St} (ht : st.db.tracking = false)
    (hl : fsLookup fsd bootstrapFile = none) :
    ensureMigrationsTable fsd st =
      (Except.error (Failure.exit
        "Error: Migrations table does not exist and 000_migrations_table.sql file not found. Please create 000_migrations_table.sql in your migrations directory."),
        addLog st LogMsg.creatingTable) := by
  unfold ensureMigrationsTable
  rw [tableExists_tracking, ht]
  simp only [Bool.false_eq_true, if_false]
  rw [hl]

theorem ensure_eq_fail {fsd : Fsd} {st : St} {c : Sql} {m : String}
    (ht : st.db.tracking = false) (hl : fsLookup fsd bootstrapFile = some c)
    (hx : execSql c st.db = Except.error m) :
    ensureMigrationsTable fsd st =
      (Except.error (Failure.err m), addLog st LogMsg.creatingTable) := by
  unfold ensureMigrationsTable
  rw [tableExists_tracking, ht]
  simp only [Bool.false_eq_true, if_false]
  rw [hl]
  dsimp only
  rw [hx]

theorem ensure_eq_ok {fsd : Fsd} {st : St} {c : Sql} {db1 : Db}
    (ht : st.db.tracking = false) (hl : fsLookup fsd bootstrapFile = some c)
    (hx : execSql c st.db = Except.ok db1) :
    ensureMigrationsTable fsd st =
      (Except.ok (), ⟨st.conn, db1, st.log ++ [LogMsg.creatingTable, LogMsg.tableCreated]⟩) := by
  unfold ensureMigrationsTable
  rw [tableExists_tracking, ht]
  simp only [Bool.false_eq_true, if_false]
  rw [hl]
  dsimp only
  rw [hx]
  simp [addLog]

theorem connectToDatabase_eq (st : St) :
    connectToDatabase st =
      (Except.ok (), ⟨true, st.db,
        st.log ++ [LogMsg.info "Connecting to database...",
          LogMsg.info "Connected successfully!"]⟩) := by
  unfold connectToDatabase connect testConnection addLog
  cases hc : st.conn <;> simp [hc]

theorem dne_included :
    includesSub "relation \"public.schema_migrations\" does not exist" "does not exist" = true := by
  decide

theorem getExecuted_eq_tracking {fsd : Fsd} {names : List String} {st : St}
    (ht : st.db.tracking = true) (hne : names.isEmpty = false) :
    getExecutedMigrations fsd names st =
      (Except.ok (st.db.records.filter (fun r => decide (r ∈ names))), st) := by
  unfold getExecutedMigrations
  rw [hne]
  simp only [Bool.false_eq_true, if_false]
  unfold SupabaseQuery membershipRows
  rw [ht]
  simp [getExecutedMigrationsFrom]

theorem getExecuted_eq_notracking {fsd : Fsd} {names : List String} {st : St}
    (ht : st.db.tracking = false) (hne : names.isEmpty = false) :
    getExecutedMigrations fsd names st =
      match ensureMigrationsTable fsd st with
      | (Except.ok _, st1) => (Except.ok ([] : List String), st1)
      | (Except.error f, st1) => (Except.error f, st1) := by
  unfold getExecutedMigrations
  rw [hne]
  simp only [Bool.false_eq_true, if_false]
  unfold SupabaseQuery membershipRows
  rw [ht]
  simp only [Bool.false_eq_true, if_false]
  unfold getExecutedMigrationsFrom
  dsimp only
  rw [dne_included]
  simp

theorem process_nil {fsd : Fsd} {set : List String} {ex sk : Nat} {st : St} :
    processMigrationFiles fsd set [] ex sk st = (Except.ok (ex, sk), st) := rfl

theorem process_cons_skip {fsd : Fsd} {set : List String} {f : String} {rest : List String}
    {ex sk : Nat} {st : St} (hsk : shouldSkipMigration f set st.db = true) :
    processMigrationFiles fsd set (f :: rest) ex sk st =
      processMigrationFiles fsd set rest ex (sk + 1) (addLog st (LogMsg.skipping f)) := by
  conv_lhs => unfold processMigrationFiles
  rw [hsk]
  simp

theorem process_cons_exec {fsd : Fsd} {set : List String} {f : String} {rest : List String}
    {ex sk : Nat} {st st1 : St} (hsk : shouldSkipMigration f set st.db = false)
    (he : executeMigration fsd f st = (Except.ok (), st1)) :
    processMigrationFiles fsd set (f :: rest) ex sk st =
      processMigrationFiles fsd set rest (ex + 1) sk st1 := by
  conv_lhs => unfold processMigrationFiles
  rw [hsk]
  simp only [Bool.false_eq_true, if_false]
  rw [he]

theorem process_cons_execfail {fsd : Fsd} {set : List String} {f : String} {rest : List String}
    {ex sk : Nat} {st st1 : St} {e : Failure} (hsk : shouldSkipMigration f set st.db = false)
    (he : executeMigration fsd f st = (Except.error e, st1)) :
    processMigrationFiles fsd set (f :: rest) ex sk st =
      (Except.error e, addLog st1 (LogMsg.errorExecuting f)) := by
  conv_lhs => unfold processMigrationFiles
  rw [hsk]
  simp only [Bool.false_eq_true, if_false]
  rw [he]


/-! ### Destructor lemmas -/

theorem executeMigration_ok {fsd : Fsd} {n : String} {st st1 : St}
    (h : executeMigration fsd n st = (Except.ok (), st1)) :
    ∃ c, fsLookup fsd n = some c ∧ txnBody c n st.db = Except.ok st1.db ∧
      st1.conn = st.conn ∧ st1.log = st.log ++ [LogMsg.executing n, LogMsg.executedOk] := by
  cases hl : fsLookup fsd n with
  | none =>
      rw [executeMigration_eq_none st hl] at h
      exact absurd (congrArg Prod.fst h) (by simp)
  | some c =>
      cases hx : txnBody c n st.db with
      | error m =>
          rw [executeMigration_eq_error st hl hx] at h
          exact absurd (congrArg Prod.fst h) (by simp)
      | ok db1 =>
          rw [executeMigration_eq_ok st hl hx] at h
          have h2 := congrArg Prod.snd h
          dsimp at h2
          subst h2
          exact ⟨c, rfl, hx, rfl, rfl⟩

theorem executeMigration_ok_db {fsd : Fsd} {n : String} {st st1 : St}
    (h : executeMigration fsd n st = (Except.ok (), st1)) :
    st1.db.tracking = true ∧ n ∈ st1.db.records ∧ st.db.records ⊆ st1.db.records := by
  obtain ⟨c, _, ht, _⟩ := executeMigration_ok h
  exact txnBody_ok ht

theorem executeMigration_error {fsd : Fsd} {n : String} {st st1 : St} {e : Failure}
    (h : executeMigration fsd n st = (Except.error e, st1)) :
    st1.db = st.db ∧ st1.conn = st.conn ∧ st1.log = st.log ++ [LogMsg.executing n] ∧
      (fsLookup fsd n = none ∨
        ∃ c m, fsLookup fsd n = some c ∧ txnBody c n st.db = Except.error m ∧
          e = Failure.err m) := by
  cases hl : fsLookup fsd n with
  | none =>
      rw [executeMigration_eq_none st hl] at h
      have h2 := congrArg Prod.snd h
      dsimp at h2
      subst h2
      exact ⟨rfl, rfl, rfl, Or.inl rfl⟩
  | some c =>
      cases hx : txnBody c n st.db with
      | error m =>
          rw [executeMigration_eq_error st hl hx] at h
          have h2 := congrArg Prod.snd h
          dsimp at h2
          subst h2
          have h1 := Except.error.inj (congrArg Prod.fst h)
          exact ⟨rfl, rfl, rfl, Or.inr ⟨c, m, rfl, hx, h1.symm⟩⟩
      | ok db1 =>
          rw [executeMigration_eq_ok st hl hx] at h
          exact absurd (congrArg Prod.fst h) (by simp)

theorem ensure_ok_cases {fsd : Fsd} {st st1 : St}
    (h : ensureMigrationsTable fsd st = (Except.ok (), st1)) :
    (st.db.tracking = true ∧ st1 = st) ∨
    (st.db.tracking = false ∧ ∃ c, fsLookup fsd bootstrapFile = some c ∧
      execSql c st.db = Except.ok st1.db ∧ st1.conn = st.conn ∧
      st1.log = st.log ++ [LogMsg.creatingTable, LogMsg.tableCreated]) := by
  cases ht : st.db.tracking with
  | true =>
      rw [ensure_eq_skip ht] at h
      have h2 := congrArg Prod.snd h
      dsimp at h2
      exact Or.inl ⟨rfl, h2.symm⟩
  | false =>
      cases hl : fsLookup fsd bootstrapFile with
      | none =>
          rw [ensure_eq_missing ht hl] at h
          exact absurd (congrArg Prod.fst h) (by simp)
      | some c =>
          cases hx : execSql c st.db with
          | error m =>
              rw [ensure_eq_fail ht hl hx] at h
              exact absurd (congrArg Prod.fst h) (by simp)
          | ok db1 =>
              rw [ensure_eq_ok ht hl hx] at h
              have h2 := congrArg Prod.snd h
              dsimp at h2
              subst h2
              exact Or.inr ⟨rfl, c, rfl, hx, rfl, rfl⟩

theorem ensure_ok_records {fsd : Fsd} {st st1 : St}
    (h : ensureMigrationsTable fsd st = (Except.ok (), st1)) :
    st1.db.records = st.db.records ∧ st1.conn = st.conn ∧
      (st.db.tracking = true → st1.db.tracking = true) := by
  rcases ensure_ok_cases h with ⟨ht, rfl⟩ | ⟨ht, c, -, hx, hc, -⟩
  · exact ⟨rfl, rfl, fun _ => ht⟩
  · exact ⟨execSql_records hx, hc, fun hcon => absurd hcon (by rw [ht]; simp)⟩

/-! ### Induction lemmas over processMigrationFiles -/

theorem process_ok_counts {fsd : Fsd} {set : List String} :
    ∀ {files : List String} {ex sk : Nat} {st : St} {ex1 sk1 : Nat} {st1 : St},
      processMigrationFiles fsd set files ex sk st = (Except.ok (ex1, sk1), st1) →
      ex1 + sk1 = ex + sk + files.length := by
  intro files
  induction files with
  | nil =>
      intro ex sk st ex1 sk1 st1 h
      rw [process_nil] at h
      have h1 := Except.ok.inj (congrArg Prod.fst h)
      cases h1
      simp
  | cons f rest ih =>
      intro ex sk st ex1 sk1 st1 h
      cases hsk : shouldSkipMigration f set st.db with
      | true =>
          rw [process_cons_skip hsk] at h
          have := ih h
          simp only [List.length_cons]
          omega
      | false =>
          rcases he : executeMigration fsd f st with ⟨r, stX⟩
          cases r with
          | ok u =>
              cases u
              rw [process_cons_exec hsk he] at h
              have := ih h
              simp only [List.length_cons]
              omega
          | error e0 =>
              rw [process_cons_execfail hsk he] at h
              exact absurd (congrArg Prod.fst h) (by simp)

theorem process_ok_state {fsd : Fsd} {set : List String} :
    ∀ {files : List String} {ex sk : Nat} {st : St} {ex1 sk1 : Nat} {st1 : St},
      processMigrationFiles fsd set files ex sk st = (Except.ok (ex1, sk1), st1) →
      st1.conn = st.conn ∧ st.db.records ⊆ st1.db.records ∧
        (st.db.tracking = true → st1.db.tracking = true) ∧ sk ≤ sk1 := by
  intro files
  induction files with
  | nil =>
      intro ex sk st ex1 sk1 st1 h
      have h2 := congrArg Prod.snd h
      dsimp at h2
      have h1 := Except.ok.inj (congrArg Prod.fst h)
      cases h1
      cases h2
      exact ⟨rfl, fun a ha => ha, fun ht => ht, le_refl _⟩
  | cons f rest ih =>
      intro ex sk st ex1 sk1 st1 h
      cases hsk : shouldSkipMigration f set st.db with
      | true =>
          rw [process_cons_skip hsk] at h
          obtain ⟨hc, hr, ht, hs⟩ := ih h
          exact ⟨hc, hr, ht, by omega⟩
      | false =>
          rcases he : executeMigration fsd f st with ⟨r, stX⟩
          cases r with
          | ok u =>
              cases u
              rw [process_cons_exec hsk he] at h
              obtain ⟨hc, hr, ht, hs⟩ := ih h
              obtain ⟨htX, hnX, hrX⟩ := executeMigration_ok_db he
              obtain ⟨-, -, -, hcX, -⟩ := executeMigration_ok he
              exact ⟨hc.trans hcX, fun a ha => hr (hrX ha), fun _ => ht htX, hs⟩
          | error e0 =>
              rw [process_cons_execfail hsk he] at h
              exact absurd (congrArg Prod.fst h) (by simp)

theorem process_ok_cover {fsd : Fsd} {set : List String} :
    ∀ {files : List String} {ex sk : Nat} {st : St} {ex1 sk1 : Nat} {st1 : St},
      processMigrationFiles fsd set files ex sk st = (Except.ok (ex1, sk1), st1) →
      ∀ f ∈ files, f ∈ set ∨ f ∈ st1.db.records ∨
        (f = bootstrapFile ∧ st1.db.tracking = true) := by
  intro files
  induction files with
  | nil => intro ex sk st ex1 sk1 st1 h f hf; exact absurd hf (List.not_mem_nil f)
  | cons g rest ih =>
      intro ex sk st ex1 sk1 st1 h f hf
      cases hsk : shouldSkipMigration g set st.db with
      | true =>
          rw [process_cons_skip hsk] at h
          rcases List.mem_cons.mp hf with rfl | hf2
          · unfold shouldSkipMigration at hsk
            rw [Bool.or_eq_true] at hsk
            rcases hsk with hb | hcon
            · rw [Bool.and_eq_true] at hb
              obtain ⟨hfb, hte⟩ := hb
              have hfb2 : f = bootstrapFile := of_decide_eq_true hfb
              rw [tableExists_tracking] at hte
              obtain ⟨-, -, htr, -⟩ := process_ok_state h
              exact Or.inr (Or.inr ⟨hfb2, htr hte⟩)
            · exact Or.inl (contains_iff_mem.mp hcon)
          · exact ih h f hf2
      | false =>
          rcases he : executeMigration fsd g st with ⟨r, stX⟩
          cases r with
          | ok u =>
              cases u
              rw [process_cons_exec hsk he] at h
              rcases List.mem_cons.mp hf with rfl | hf2
              · obtain ⟨-, hn, -⟩ := executeMigration_ok_db he
                obtain ⟨-, hr, -, -⟩ := process_ok_state h
                exact Or.inr (Or.inl (hr hn))
              · exact ih h f hf2
          | error e0 =>
              rw [process_cons_execfail hsk he] at h
              exact absurd (congrArg Prod.fst h) (by simp)

theorem process_tracking_of_bootstrap {fsd : Fsd} {set : List String} :
    ∀ {files : List String} {ex sk : Nat} {st : St} {ex1 sk1 : Nat} {st1 : St},
      processMigrationFiles fsd set files ex sk st = (Except.ok (ex1, sk1), st1) →
      bootstrapFile ∈ files → set.contains bootstrapFile = false →
      st.db.tracking = false → st1.db.tracking = true := by
  intro files
  induction files with
  | nil => intro ex sk st ex1 sk1 st1 h hb; exact absurd hb (List.not_mem_nil _)
  | cons g rest ih =>
      intro ex sk st ex1 sk1 st1 h hb hset ht
      cases hsk : shouldSkipMigration g set st.db with
      | true =>
          rw [process_cons_skip hsk] at h
          have hgb : g ≠ bootstrapFile := by
            intro hgb
            subst hgb
            unfold shouldSkipMigration at hsk
            rw [tableExists_tracking, ht, hset] at hsk
            simp at hsk
          rcases List.mem_cons.mp hb with hb1 | hb2
          · exact absurd hb1.symm hgb
          · exact ih h hb2 hset ht
      | false =>
          rcases he : executeMigration fsd g st with ⟨r, stX⟩
          cases r with
          | ok u =>
              cases u
              rw [process_cons_exec hsk he] at h
              obtain ⟨htX, -, -⟩ := executeMigration_ok_db he
              obtain ⟨-, -, htr, -⟩ := process_ok_state h
              exact htr htX
          | error e0 =>
              rw [process_cons_execfail hsk he] at h
              exact absurd (congrArg Prod.fst h) (by simp)

theorem process_allskip {fsd : Fsd} {set : List String} :
    ∀ {files : List String} {ex sk : Nat} {st : St},
      (∀ f ∈ files, shouldSkipMigration f set st.db = true) →
      ∃ st1, processMigrationFiles fsd set files ex sk st =
          (Except.ok (ex, sk + files.length), st1) ∧
        st1.db = st.db ∧ st1.conn = st.conn := by
  intro files
  induction files with
  | nil =>
      intro ex sk st _
      exact ⟨st, by rw [process_nil]; simp, rfl, rfl⟩
  | cons f rest ih =>
      intro ex sk st hall
      have hsk : shouldSkipMigration f set st.db = true := hall f (List.mem_cons_self f rest)
      have hall2 : ∀ g ∈ rest, shouldSkipMigration g set (addLog st (LogMsg.skipping f)).db = true :=
        fun g hg => hall g (List.mem_cons_of_mem f hg)
      obtain ⟨st1, heq, hdb, hconn⟩ := ih hall2
      refine ⟨st1, ?_, hdb, hconn⟩
      rw [process_cons_skip hsk, heq]
      have h3 : sk + 1 + rest.length = sk + (f :: rest).length := by
        simp only [List.length_cons]
        omega
      rw [h3]

theorem process_log {fsd : Fsd} {set : List String} :
    ∀ {files : List String} {ex sk : Nat} {st : St} {r : Except Failure (Nat × Nat)} {st1 : St},
      processMigrationFiles fsd set files ex sk st = (r, st1) →
      st.db.tracking = true →
      ∀ m ∈ st1.log, m ∈ st.log ∨
        (∃ f, f ≠ bootstrapFile ∧ (m = LogMsg.executing f ∨ m = LogMsg.errorExecuting f)) ∨
        (∃ f, m = LogMsg.skipping f) ∨ m = LogMsg.executedOk := by
  intro files
  induction files with
  | nil =>
      intro ex sk st r st1 h ht m hm
      have h2 := congrArg Prod.snd h
      dsimp at h2
      cases h2
      exact Or.inl hm
  | cons g rest ih =>
      intro ex sk st r st1 h ht m hm
      cases hsk : shouldSkipMigration g set st.db with
      | true =>
          rw [process_cons_skip hsk] at h
          rcases ih h ht m hm with hin | hrest
          · rcases List.mem_append.mp hin with hin2 | hin3
            · exact Or.inl hin2
            · simp only [List.mem_singleton] at hin3
              exact Or.inr (Or.inr (Or.inl ⟨g, hin3⟩))
          · exact Or.inr hrest
      | false =>
          have hgb : g ≠ bootstrapFile := by
            intro hgb
            subst hgb
            rw [shouldSkip_bootstrap ht] at hsk
            exact absurd hsk (by simp)
          rcases he : executeMigration fsd g st with ⟨rX, stX⟩
          cases rX with
          | ok u =>
              cases u
              rw [process_cons_exec hsk he] at h
              obtain ⟨-, -, -, -, hlogX⟩ := executeMigration_ok he
              obtain ⟨htX, -, -⟩ := executeMigration_ok_db he
              rcases ih h htX m hm with hin | hrest
              · rw [hlogX] at hin
                rcases List.mem_append.mp hin with hin2 | hin3
                · exact Or.inl hin2
                · rcases List.mem_cons.mp hin3 with rfl | hin4
                  · exact Or.inr (Or.inl ⟨g, hgb, Or.inl rfl⟩)
                  · simp only [List.mem_singleton] at hin4
                    subst hin4
                    exact Or.inr (Or.inr (Or.inr rfl))
              · exact Or.inr hrest
          | error e0 =>
              rw [process_cons_execfail hsk he] at h
              have h2 := congrArg Prod.snd h
              dsimp at h2
              cases h2
              obtain ⟨-, -, hlogX, -⟩ := executeMigration_error he
              simp only [addLog, hlogX] at hm
              rcases List.mem_append.mp hm with hin | hin3
              · rcases List.mem_append.mp hin with hin2 | hinX
                · exact Or.inl hin2
                · simp only [List.mem_singleton] at hinX
                  subst hinX
                  exact Or.inr (Or.inl ⟨g, hgb, Or.inl rfl⟩)
              · simp only [List.mem_singleton] at hin3
                subst hin3
                exact Or.inr (Or.inl ⟨g, hgb, Or.inr rfl⟩)

/-! ### Run-level lemmas -/

theorem bootstrap_mem_files {fsd : Fsd} {c : Sql} {files : List String}
    (hl : fsLookup fsd bootstrapFile = some c)
    (hF : getMigrationFiles fsd = Except.ok files) : bootstrapFile ∈ files := by
  cases fsd with
  | none => exact absurd hl (by simp [fsLookup])
  | some entries =>
      unfold fsLookup at hl
      rw [Option.map_eq_some'] at hl
      obtain ⟨e, he, -⟩ := hl
      have hmem : e ∈ entries := List.mem_of_find?_eq_some he
      have hpe0 : decide (e.1 = bootstrapFile) = true := by
        have := List.find?_some he
        simpa using this
      have hpe : e.1 = bootstrapFile := of_decide_eq_true hpe0
      unfold getMigrationFiles at hF
      have hfiles := Except.ok.inj hF
      rw [← hfiles]
      rw [(List.perm_insertionSort nameLe _).mem_iff, List.mem_filter]
      constructor
      · rw [← hpe]
        exact List.mem_map_of_mem Prod.fst hmem
      · decide

theorem run_ok_spec {fsd : Fsd} {st : St} {ex sk : Nat} {st1 : St}
    (h : run fsd st = (Except.ok (ex, sk), st1)) :
    ∃ files, getMigrationFiles fsd = Except.ok files ∧ ex + sk = files.length ∧
      st1.db.tracking = true ∧
      (∀ f ∈ files, f ∈ st1.db.records ∨ f = bootstrapFile) ∧
      (files.isEmpty = true → st1.db = st.db) := by
  unfold run at h
  rw [connectToDatabase_eq] at h
  dsimp only at h
  rcases hE : ensureMigrationsTable fsd
      ⟨true, (addLog st (LogMsg.info "Starting migration process...")).db,
        (addLog st (LogMsg.info "Starting migration process...")).log ++
          [LogMsg.info "Connecting to database...", LogMsg.info "Connected successfully!"]⟩
    with ⟨rE, st2⟩
  rw [hE] at h
  cases rE with
  | error f => dsimp only at h; exact absurd (congrArg Prod.fst h) (by simp)
  | ok u =>
      cases u
      dsimp only at h
      cases hF : getMigrationFiles fsd with
      | error f => rw [hF] at h; dsimp only at h; exact absurd (congrArg Prod.fst h) (by simp)
      | ok files =>
          rw [hF] at h
          dsimp only at h
          have hst2db : st2.db.records = st.db.records ∧
              (st.db.tracking = true → st2.db.tracking = true) := by
            obtain ⟨h1, -, h3⟩ := ensure_ok_records hE
            exact ⟨h1, h3⟩
          cases hEmp : files.isEmpty with
          | true =>
              rw [hEmp] at h
              simp only [if_true] at h
              have h1 := Except.ok.inj (congrArg Prod.fst h)
              cases h1
              have h2 := congrArg Prod.snd h
              dsimp at h2
              have hnil : files = [] := List.isEmpty_iff.mp hEmp
              rcases ensure_ok_cases hE with ⟨ht, rfl⟩ | ⟨-, c, hl, -, -, -⟩
              · refine ⟨files, rfl, by simp [hnil], ?_, ?_, ?_⟩
                · rw [← h2]; exact ht
                · intro f hf; rw [hnil] at hf; exact absurd hf (List.not_mem_nil f)
                · intro _
                  rw [← h2]
                  rfl
              · exact absurd (bootstrap_mem_files hl hF)
                  (by rw [hnil]; exact List.not_mem_nil _)
          | false =>
              rw [hEmp] at h
              simp only [Bool.false_eq_true, if_false] at h
              rcases hG : getExecutedMigrations fsd files
                  (addLog st2 (LogMsg.info "Found migration file(s)")) with ⟨rG, st4⟩
              rw [hG] at h
              cases rG with
              | error f =>
                  dsimp only at h
                  exact absurd (congrArg Prod.fst h) (by simp)
              | ok setE =>
                  dsimp only at h
                  rcases hP : processMigrationFiles fsd setE files 0 0 st4 with ⟨rP, st5⟩
                  rw [hP] at h
                  cases rP with
                  | error f =>
                      dsimp only at h
                      exact absurd (congrArg Prod.fst h) (by simp)
                  | ok p =>
                      rcases p with ⟨exP, skP⟩
                      dsimp only at h
                      have h1 := Except.ok.inj (congrArg Prod.fst h)
                      cases h1
                      have h2 := congrArg Prod.snd h
                      dsimp at h2
                      have hst1db : st1.db = st5.db := by rw [← h2]; rfl
                      have hcounts := process_ok_counts hP
                      refine ⟨files, rfl, by omega, ?_, ?_, ?_⟩
                      · -- tracking of st1
                        rw [hst1db]
                        cases htr2 : st2.db.tracking with
                        | true =>
                            have hG2 := @getExecuted_eq_tracking fsd files
                              (addLog st2 (LogMsg.info "Found migration file(s)")) htr2 hEmp
                            rw [hG2] at hG
                            have h4 := congrArg Prod.snd hG
                            dsimp at h4
                            obtain ⟨-, -, htr, -⟩ := process_ok_state hP
                            exact htr (by rw [← h4]; exact htr2)
                        | false =>
                            have hG2 := @getExecuted_eq_notracking fsd files
                              (addLog st2 (LogMsg.info "Found migration file(s)")) htr2 hEmp
                            rw [hG2] at hG
                            rcases hE2 : ensureMigrationsTable fsd
                                (addLog st2 (LogMsg.info "Found migration file(s)"))
                              with ⟨rE2, stE2⟩
                            rw [hE2] at hG
                            cases rE2 with
                            | error f =>
                                dsimp only at hG
                                exact absurd (congrArg Prod.fst hG) (by simp)
                            | ok u2 =>
                                cases u2
                                dsimp only at hG
                                have hsetE := Except.ok.inj (congrArg Prod.fst hG)
                                have hst4 := congrArg Prod.snd hG
                                dsimp at hsetE hst4
                                rcases ensure_ok_cases hE2 with ⟨htc, -⟩ | ⟨-, c2, hl2, -, -, -⟩
                                · exact absurd htc (by rw [addLog_db, htr2]; simp)
                                · have hbmem := bootstrap_mem_files hl2 hF
                                  cases htr4 : st4.db.tracking with
                                  | true =>
                                      obtain ⟨-, -, htr, -⟩ := process_ok_state hP
                                      exact htr htr4
                                  | false =>
                                      exact process_tracking_of_bootstrap hP hbmem
                                        (by rw [← hsetE]; rfl) htr4
                      · -- coverage
                        intro f hf
                        rcases process_ok_cover hP f hf with hin | hin | ⟨hb, -⟩
                        · -- f ∈ setE: show f was recorded before the walk
                          cases htr2 : st2.db.tracking with
                          | true =>
                              have hG2 := @getExecuted_eq_tracking fsd files
                                (addLog st2 (LogMsg.info "Found migration file(s)")) htr2 hEmp
                              rw [hG2] at hG
                              have hsetE := Except.ok.inj (congrArg Prod.fst hG)
                              have hst4 := congrArg Prod.snd hG
                              dsimp at hsetE hst4
                              rw [← hsetE] at hin
                              have hf2 : f ∈ st2.db.records := (List.mem_filter.mp hin).1
                              obtain ⟨-, hsub, -, -⟩ := process_ok_state hP
                              rw [hst1db]
                              exact Or.inl (hsub (by rw [← hst4]; exact hf2))
                          | false =>
                              have hG2 := @getExecuted_eq_notracking fsd files
                                (addLog st2 (LogMsg.info "Found migration file(s)")) htr2 hEmp
                              rw [hG2] at hG
                              rcases hE2 : ensureMigrationsTable fsd
                                  (addLog st2 (LogMsg.info "Found migration file(s)"))
                                with ⟨rE2, stE2⟩
                              rw [hE2] at hG
                              cases rE2 with
                              | error f2 =>
                                  dsimp only at hG
                                  exact absurd (congrArg Prod.fst hG) (by simp)
                              | ok u2 =>
                                  cases u2
                                  dsimp only at hG
                                  have hsetE := Except.ok.inj (congrArg Prod.fst hG)
                                  rw [← hsetE] at hin
                                  exact absurd hin (List.not_mem_nil f)
                        · rw [hst1db]; exact Or.inl hin
                        · exact Or.inr hb
                      · -- empty case impossible here
                        intro hc
                        rw [hc] at hEmp
                        exact absurd hEmp (by simp)

theorem run_of_tracking_allskip {fsd : Fsd} {st : St} {files : List String}
    (htr : st.db.tracking = true)
    (hF : getMigrationFiles fsd = Except.ok files)
    (hcover : ∀ f ∈ files, f ∈ st.db.records ∨ f = bootstrapFile) :
    ∃ st2, run fsd st = (Except.ok (0, files.length), st2) ∧ st2.db = st.db := by
  cases hEmp : files.isEmpty with
  | true =>
      have hnil : files = [] := List.isEmpty_iff.mp hEmp
      refine ⟨addLog ⟨true, (addLog st (LogMsg.info "Starting migration process...")).db,
          (addLog st (LogMsg.info "Starting migration process...")).log ++
            [LogMsg.info "Connecting to database...", LogMsg.info "Connected successfully!"]⟩
        (LogMsg.info "No migration files found"), ?_, ?_⟩
      · unfold run
        rw [connectToDatabase_eq]
        dsimp only
        rw [@ensure_eq_skip fsd
          ⟨true, (addLog st (LogMsg.info "Starting migration process...")).db,
            (addLog st (LogMsg.info "Starting migration process...")).log ++
              [LogMsg.info "Connecting to database...",
                LogMsg.info "Connected successfully!"]⟩ htr]
        dsimp only
        rw [hF]
        dsimp only
        rw [hEmp]
        simp only [if_true]
        rw [hnil]
        rfl
      · rfl
  | false =>
      have hG := @getExecuted_eq_tracking fsd files
        (addLog ⟨true, (addLog st (LogMsg.info "Starting migration process...")).db,
          (addLog st (LogMsg.info "Starting migration process...")).log ++
            [LogMsg.info "Connecting to database...", LogMsg.info "Connected successfully!"]⟩
          (LogMsg.info "Found migration file(s)")) htr hEmp
      have hall : ∀ f ∈ files,
          shouldSkipMigration f
            ((addLog ⟨true, (addLog st (LogMsg.info "Starting migration process...")).db,
              (addLog st (LogMsg.info "Starting migration process...")).log ++
                [LogMsg.info "Connecting to database...",
                  LogMsg.info "Connected successfully!"]⟩
              (LogMsg.info "Found migration file(s)")).db.records.filter
                (fun r => decide (r ∈ files)))
            (addLog ⟨true, (addLog st (LogMsg.info "Starting migration process...")).db,
              (addLog st (LogMsg.info "Starting migration process...")).log ++
                [LogMsg.info "Connecting to database...",
                  LogMsg.info "Connected successfully!"]⟩
              (LogMsg.info "Found migration file(s)")).db = true := by
        intro f hf
        rcases hcover f hf with hrec | rfl
        · unfold shouldSkipMigration
          rw [Bool.or_eq_true]
          right
          rw [contains_iff_mem]
          rw [List.mem_filter]
          exact ⟨hrec, by simpa using hf⟩
        · exact shouldSkip_bootstrap htr
      obtain ⟨stF, hPr, hdbF, -⟩ := @process_allskip fsd
        ((addLog ⟨true, (addLog st (LogMsg.info "Starting migration process...")).db,
          (addLog st (LogMsg.info "Starting migration process...")).log ++
            [LogMsg.info "Connecting to database...",
              LogMsg.info "Connected successfully!"]⟩
          (LogMsg.info "Found migration file(s)")).db.records.filter
            (fun r => decide (r ∈ files)))
        files 0 0
        (addLog ⟨true, (addLog st (LogMsg.info "Starting migration process...")).db,
          (addLog st (LogMsg.info "Starting migration process...")).log ++
            [LogMsg.info "Connecting to database...",
              LogMsg.info "Connected successfully!"]⟩
          (LogMsg.info "Found migration file(s)")) hall
      refine ⟨printSummary stF, ?_, ?_⟩
      · unfold run
        rw [connectToDatabase_eq]
        dsimp only
        rw [@ensure_eq_skip fsd
          ⟨true, (addLog st (LogMsg.info "Starting migration process...")).db,
            (addLog st (LogMsg.info "Starting migration process...")).log ++
              [LogMsg.info "Connecting to database...",
                LogMsg.info "Connected successfully!"]⟩ htr]
        dsimp only
        rw [hF]
        dsimp only
        rw [hEmp]
        simp only [Bool.false_eq_true, if_false]
        rw [hG]
        dsimp only
        rw [hPr]
        dsimp only
        rw [Nat.zero_add]
      · exact hdbF

theorem process_bootstrap_skipped {fsd : Fsd} {set : List String} :
    ∀ {files : List String} {ex sk : Nat} {st : St} {ex1 sk1 : Nat} {st1 : St},
      processMigrationFiles fsd set files ex sk st = (Except.ok (ex1, sk1), st1) →
      bootstrapFile ∈ files → st.db.tracking = true → sk + 1 ≤ sk1 := by
  intro files
  induction files with
  | nil => intro ex sk st ex1 sk1 st1 h hb; exact absurd hb (List.not_mem_nil _)
  | cons g rest ih =>
      intro ex sk st ex1 sk1 st1 h hb ht
      cases hsk : shouldSkipMigration g set st.db with
      | true =>
          rw [process_cons_skip hsk] at h
          obtain ⟨-, -, -, hs⟩ := process_ok_state h
          exact by omega
      | false =>
          have hgb : g ≠ bootstrapFile := by
            intro hgb
            subst hgb
            rw [shouldSkip_bootstrap ht] at hsk
            exact absurd hsk (by simp)
          have hb2 : bootstrapFile ∈ rest := by
            rcases List.mem_cons.mp hb with hb1 | hb1
            · exact absurd hb1.symm hgb
            · exact hb1
          rcases he : executeMigration fsd g st with ⟨r, stX⟩
          cases r with
          | ok u =>
              cases u
              rw [process_cons_exec hsk he] at h
              obtain ⟨htX, -, -⟩ := executeMigration_ok_db he
              exact ih h hb2 htX
          | error e0 =>
              rw [process_cons_execfail hsk he] at h
              exact absurd (congrArg Prod.fst h) (by simp)

theorem ensure_records_any {fsd : Fsd} {st : St} :
    (ensureMigrationsTable fsd st).2.db.records = st.db.records := by
  cases ht : st.db.tracking with
  | true => rw [ensure_eq_skip ht]
  | false =>
      cases hl : fsLookup fsd bootstrapFile with
      | none => rw [ensure_eq_missing ht hl]; rfl
      | some c =>
          cases hx : execSql c st.db with
          | error m => rw [ensure_eq_fail ht hl hx]; rfl
          | ok db1 =>
              rw [ensure_eq_ok ht hl hx]
              exact execSql_records hx

/-! ### Claim theorems -/

/-- C4: when applying a pending migration fails, the run decomposes as:
a prefix of the discovered sequence processed successfully, then the
failing file, whose execution attempt fails with the transaction rolled
back — the final database equals the database reached after the prefix,
so prior committed migrations remain and the failing migration leaves
no record and no partial SQL effect — the error log names the failing
file, the original error propagates unchanged, and the files after the
failing one are never attempted (the outcome is identical for every
possible suffix). -/
theorem c4_failure_atomic {fsd : Fsd} {set : List String} :
    ∀ {files : List String} {ex sk : Nat} {st : St} {e : Failure} {st1 : St},
      processMigrationFiles fsd set files ex sk st = (Except.error e, st1) →
      ∃ pre f post exM skM stMid stE,
        files = pre ++ f :: post ∧
        processMigrationFiles fsd set pre ex sk st = (Except.ok (exM, skM), stMid) ∧
        shouldSkipMigration f set stMid.db = false ∧
        executeMigration fsd f stMid = (Except.error e, stE) ∧
        st1 = addLog stE (LogMsg.errorExecuting f) ∧
        st1.db = stMid.db ∧
        LogMsg.errorExecuting f ∈ st1.log ∧
        (∀ post2, processMigrationFiles fsd set (pre ++ f :: post2) ex sk st =
          (Except.error e, st1)) := by
  intro files
  induction files with
  | nil =>
      intro ex sk st e st1 h
      rw [process_nil] at h
      exact absurd (congrArg Prod.fst h) (by simp)
  | cons g rest ih =>
      intro ex sk st e st1 h
      cases hsk : shouldSkipMigration g set st.db with
      | true =>
          rw [process_cons_skip hsk] at h
          obtain ⟨pre, f, post, exM, skM, stMid, stE, hfe, hpre, hskf, hexe, hst1, hdb,
            hmem, hind⟩ := ih h
          refine ⟨g :: pre, f, post, exM, skM, stMid, stE, by rw [hfe]; rfl, ?_,
            hskf, hexe, hst1, hdb, hmem, ?_⟩
          · rw [process_cons_skip hsk]; exact hpre
          · intro post2
            rw [List.cons_append, process_cons_skip hsk]
            exact hind post2
      | false =>
          rcases he : executeMigration fsd g st with ⟨r, stX⟩
          cases r with
          | ok u =>
              cases u
              rw [process_cons_exec hsk he] at h
              obtain ⟨pre, f, post, exM, skM, stMid, stE, hfe, hpre, hskf, hexe, hst1, hdb,
                hmem, hind⟩ := ih h
              refine ⟨g :: pre, f, post, exM, skM, stMid, stE, by rw [hfe]; rfl, ?_,
                hskf, hexe, hst1, hdb, hmem, ?_⟩
              · rw [process_cons_exec hsk he]; exact hpre
              · intro post2
                rw [List.cons_append, process_cons_exec hsk he]
                exact hind post2
          | error e0 =>
              rw [process_cons_execfail hsk he] at h
              have h1 := Except.error.inj (congrArg Prod.fst h)
              have h2 := congrArg Prod.snd h
              dsimp at h2
              subst h1
              subst h2
              obtain ⟨hdbX, -, hlogX, -⟩ := executeMigration_error he
              refine ⟨[], g, rest, ex, sk, st, stX, rfl, process_nil, hsk, he, rfl, ?_, ?_, ?_⟩
              · exact hdbX
              · simp [addLog]
              · intro post2
                rw [List.nil_append, process_cons_execfail hsk he]

/-- C1 counterexample: on the fresh-database scenario the first run
returns `executed=1, skipped=1` — the bootstrap file is executed by the
tracking-table bootstrap step before the loop and then counted as
skipped — so it does not return `executed=2, skipped=0` with two
tracking records as the claim states. -/
theorem c1_counterexample :
    (run fsFresh st0).1 = Except.ok (1, 1) ∧
    ¬((run fsFresh st0).1 = Except.ok (2, 0) ∧
      (run fsFresh st0).2.db.records.length = 2) := by decide

/-- C1 amended: fresh-database scenario — the first run returns
`executed=1, skipped=1` and leaves exactly one tracking record (the
non-bootstrap migration; the bootstrap is applied by
`ensureMigrationsTable` without a record); the second run with nothing
changed returns `executed=0, skipped=2` and leaves the database
untouched. -/
theorem c1_fresh_database_amended :
    (run fsFresh st0).1 = Except.ok (1, 1) ∧
    (run fsFresh st0).2.db.records = ["001_create_widgets.sql"] ∧
    (run fsFresh st0).2.db.tracking = true ∧
    (run fsFresh (run fsFresh st0).2).1 = Except.ok (0, 2) ∧
    (run fsFresh (run fsFresh st0).2).2.db = (run fsFresh st0).2.db := by decide

/-- C2 counterexample: after a successful fresh-database run the
bootstrap migration SQL has been committed (the tracking relation
exists) yet no Migration Record exists for the bootstrap file — the
record-iff-committed equivalence fails for the bootstrap path, which
runs outside any transaction and never writes a record. -/
theorem c2_counterexample :
    (run fsFresh st0).1 = Except.ok (1, 1) ∧
    (run fsFresh st0).2.db.tracking = true ∧
    bootstrapFile ∉ (run fsFresh st0).2.db.records := by decide

/-- C2 amended: for migrations applied through `executeMigration` the
SQL and the Migration Record are committed atomically — on success the
resulting database is exactly the transaction result, which contains
the record; on failure the database is unchanged — while
`ensureMigrationsTable` commits the bootstrap SQL without writing any
record. -/
theorem c2_record_iff_committed_amended :
    ∀ (fsd : Fsd) (n : String) (st st1 : St),
      (executeMigration fsd n st = (Except.ok (), st1) →
        ∃ c, fsLookup fsd n = some c ∧ txnBody c n st.db = Except.ok st1.db ∧
          n ∈ st1.db.records) ∧
      (∀ e, executeMigration fsd n st = (Except.error e, st1) → st1.db = st.db) ∧
      (ensureMigrationsTable fsd st).2.db.records = st.db.records := by
  intro fsd n st st1
  refine ⟨?_, ?_, ensure_records_any⟩
  · intro h
    obtain ⟨c, hl, hx, -, -⟩ := executeMigration_ok h
    obtain ⟨-, hn, -⟩ := txnBody_ok hx
    exact ⟨c, hl, hx, hn⟩
  · intro e h
    exact (executeMigration_error h).1

/-- C2 amended, witnessed at the widgets migration over a tracked
database. -/
theorem c2_amended_witness :
    ∃ c, fsLookup fsFresh "001_create_widgets.sql" = some c ∧
      txnBody c "001_create_widgets.sql" stTracked.db =
        Except.ok (⟨true, ⟨true, ["001_create_widgets.sql"], ["widgets"]⟩,
          [LogMsg.executing "001_create_widgets.sql", LogMsg.executedOk]⟩ : St).db ∧
      "001_create_widgets.sql" ∈ (⟨true, ⟨true, ["001_create_widgets.sql"], ["widgets"]⟩,
          [LogMsg.executing "001_create_widgets.sql", LogMsg.executedOk]⟩ : St).db.records :=
  (c2_record_iff_committed_amended fsFresh "001_create_widgets.sql" stTracked
    ⟨true, ⟨true, ["001_create_widgets.sql"], ["widgets"]⟩,
      [LogMsg.executing "001_create_widgets.sql", LogMsg.executedOk]⟩).1 (by decide)

/-- C9: whenever `params` is non-empty with an array first element, the
Supabase adapter query runs the fixed membership statement on the
tracking relation and ignores the supplied query text entirely — the
result is the same for every query string and every driver fallback. -/
theorem c9_query_ignores_text :
    ∀ (fallback : String → List JsParam → Db → Except String (List String)) (db : Db)
      (q1 q2 : String) (xs : List String) (rest : List JsParam),
      SupabaseQuery fallback db q1 (JsParam.arr xs :: rest) = membershipRows db xs ∧
      SupabaseQuery fallback db q1 (JsParam.arr xs :: rest) =
        SupabaseQuery fallback db q2 (JsParam.arr xs :: rest) := by
  intro fallback db q1 q2 xs rest
  exact ⟨rfl, rfl⟩

/-- C10: a run that completes without error counts every discovered
file exactly once — the returned counts satisfy
`executed + skipped = number of discovered files`. -/
theorem c10_counts_partition {fsd : Fsd} {st : St} {ex sk : Nat} {st1 : St}
    (h : run fsd st = (Except.ok (ex, sk), st1)) :
    ∃ files, getMigrationFiles fsd = Except.ok files ∧ ex + sk = files.length := by
  obtain ⟨files, hF, hc, -, -, -⟩ := run_ok_spec h
  exact ⟨files, hF, hc⟩

/-- C10 witnessed on the fresh-database scenario. -/
theorem c10_witness :
    ∃ files, getMigrationFiles fsFresh = Except.ok files ∧ 1 + 1 = files.length :=
  @c10_counts_partition fsFresh st0 1 1 ((run fsFresh st0).2) (by decide)

/-- C8 counterexample: when `run()` fails (here: the second migration
raises), `executeMigrationWorkflow` propagates the error without ever
calling `cleanup`, leaving the adapter connection open — teardown is
not guaranteed on every exit path. -/
theorem c8_counterexample :
    (executeMigrationWorkflow "supabase" fsBoom st0).1 = Except.error (Failure.err "boom") ∧
    (executeMigrationWorkflow "supabase" fsBoom st0).2.conn = true := by decide

/-- C8 amended: the workflow tears the connection down by `cleanup`
(an explicit disconnect) only on the successful exit path of `run()`;
a failing run propagates its error with the connection still open. -/
theorem c8_cleanup_on_success {fsd : Fsd} {st : St} {r : Nat × Nat} {st1 : St}
    (h : run fsd st = (Except.ok r, st1)) :
    executeMigrationWorkflow "supabase" fsd st = (Except.ok r, cleanup st1) ∧
      (cleanup st1).conn = false := by
  have hfac : adapterFactoryCreate "supabase" = Except.ok () := by decide
  constructor
  · unfold executeMigrationWorkflow
    rw [hfac]
    dsimp only
    rw [h]
  · rfl

/-- C8 amended, witnessed on the fresh-database scenario. -/
theorem c8_witness :
    executeMigrationWorkflow "supabase" fsFresh st0 =
      (Except.ok (1, 1), cleanup (run fsFresh st0).2) ∧
      (cleanup (run fsFresh st0).2).conn = false :=
  @c8_cleanup_on_success fsFresh st0 (1, 1) ((run fsFresh st0).2) (by decide)

/-- C3: idempotence of `run()` — after one successful run, a second
run with the migration source and database unchanged executes nothing:
it returns `executed=0` with every discovered file counted as skipped,
and leaves the database state identical. -/
theorem c3_run_idempotent {fsd : Fsd} {st : St} {r : Nat × Nat} {st1 : St}
    (h : run fsd st = (Except.ok r, st1)) :
    ∃ files st2, getMigrationFiles fsd = Except.ok files ∧
      run fsd st1 = (Except.ok (0, files.length), st2) ∧ st2.db = st1.db := by
  rcases r with ⟨ex, sk⟩
  obtain ⟨files, hF, -, htr, hcover, -⟩ := run_ok_spec h
  obtain ⟨st2, hrun, hdb⟩ := run_of_tracking_allskip htr hF hcover
  exact ⟨files, st2, hF, hrun, hdb⟩

/-- C3 witnessed on the fresh-database scenario. -/
theorem c3_witness :
    ∃ files st2, getMigrationFiles fsFresh = Except.ok files ∧
      run fsFresh (run fsFresh st0).2 = (Except.ok (0, files.length), st2) ∧
      st2.db = (run fsFresh st0).2.db :=
  @c3_run_idempotent fsFresh st0 (1, 1) ((run fsFresh st0).2) (by decide)

/-- C5: the batch-diff catch handler recovers locally exactly from
errors whose message includes `does not exist` — it re-runs the
tracking-table bootstrap and returns the empty executed set without
surfacing the query error — while any other query failure goes to
`errorHandler` (fatal); concretely, when the tracking relation is
absent, the query error is classified as benign and the call returns
the empty set over the re-bootstrapped database. -/
theorem c5_batch_diff_recovery :
    ∀ (fsd : Fsd) (st : St) (msg : String),
      (includesSub msg "does not exist" = true →
        ∀ st1, ensureMigrationsTable fsd st = (Except.ok (), st1) →
          getExecutedMigrationsFrom fsd (Except.error msg) st = (Except.ok [], st1)) ∧
      (includesSub msg "does not exist" = false →
        getExecutedMigrationsFrom fsd (Except.error msg) st =
          (Except.error (Failure.exit ("Error: " ++ msg)), st)) ∧
      (∀ names : List String, st.db.tracking = false → names.isEmpty = false →
        fsLookup fsd bootstrapFile = some Sql.createTrackingTable →
        getExecutedMigrations fsd names st =
          (Except.ok [], ⟨st.conn, ⟨true, st.db.records, st.db.tables⟩,
            st.log ++ [LogMsg.creatingTable, LogMsg.tableCreated]⟩)) := by
  intro fsd st msg
  refine ⟨?_, ?_, ?_⟩
  · intro hinc st1 hE
    unfold getExecutedMigrationsFrom
    dsimp only
    rw [hinc]
    simp only [if_true]
    rw [hE]
  · intro hinc
    unfold getExecutedMigrationsFrom
    dsimp only
    rw [hinc]
    simp
  · intro names ht hne hl
    have hx : execSql Sql.createTrackingTable st.db = Except.ok ⟨true, st.db.records, st.db.tables⟩ := by
      unfold execSql
      rw [ht]
      simp only [Bool.false_eq_true, if_false]
    rw [getExecuted_eq_notracking ht hne, ensure_eq_ok ht hl hx]

/-- C5 witnessed: the absent-tracking-relation query error is recovered
by re-bootstrapping, and a non-matching error is fatal. -/
theorem c5_witness :
    getExecutedMigrations fsFresh ["001_create_widgets.sql"] stUntracked =
      (Except.ok [], ⟨stUntracked.conn,
        ⟨true, stUntracked.db.records, stUntracked.db.tables⟩,
        stUntracked.log ++ [LogMsg.creatingTable, LogMsg.tableCreated]⟩) ∧
    getExecutedMigrationsFrom fsFresh (Except.error "syntax error") stUntracked =
      (Except.error (Failure.exit ("Error: " ++ "syntax error")), stUntracked) :=
  ⟨(c5_batch_diff_recovery fsFresh stUntracked "x").2.2 ["001_create_widgets.sql"]
      (by decide) (by decide) (by decide),
    (c5_batch_diff_recovery fsFresh stUntracked "syntax error").2.1 (by decide)⟩

/-- C7: migration source discovery — a missing directory is a fatal
source-not-found error; for an existing directory the result is
exactly the entries ending in `.sql` and not starting with `_`, sorted
ascending by name; and the output is independent of the order in which
the filesystem enumerates the entries. -/
theorem c7_discovery :
    (getMigrationFiles none =
      Except.error (Failure.exit "Error: Migrations directory not found")) ∧
    (∀ entries : List (String × Sql), ∃ l,
      getMigrationFiles (some entries) = Except.ok l ∧
      List.Sorted nameLe l ∧
      (∀ f, f ∈ l ↔ f ∈ entries.map Prod.fst ∧
        ".sql".data.isSuffixOf f.data = true ∧ "_".data.isPrefixOf f.data = false)) ∧
    (∀ e1 e2 : List (String × Sql), (e1.map Prod.fst).Perm (e2.map Prod.fst) →
      getMigrationFiles (some e1) = getMigrationFiles (some e2)) := by
  refine ⟨rfl, ?_, ?_⟩
  · intro entries
    refine ⟨_, rfl, List.sorted_insertionSort nameLe _, ?_⟩
    intro f
    rw [(List.perm_insertionSort nameLe _).mem_iff, List.mem_filter]
    unfold migrationFilter
    rw [Bool.and_eq_true, Bool.not_eq_true']
  · intro e1 e2 hperm
    unfold getMigrationFiles
    dsimp only
    have hs := List.eq_of_perm_of_sorted (r := nameLe)
      (((List.perm_insertionSort nameLe _).trans (hperm.filter migrationFilter)).trans
        (List.perm_insertionSort nameLe _).symm)
      (List.sorted_insertionSort nameLe _) (List.sorted_insertionSort nameLe _)
    rw [hs]

/-- C7 witnessed: enumeration order does not matter, and filtering and
sorting behave as stated on a concrete directory. -/
theorem c7_witness :
    getMigrationFiles (some [("010_c.sql", Sql.noop), ("001_a.sql", Sql.noop),
        ("_priv.sql", Sql.noop), ("notes.txt", Sql.noop), ("002_b.sql", Sql.noop)]) =
      getMigrationFiles (some [("002_b.sql", Sql.noop), ("notes.txt", Sql.noop),
        ("001_a.sql", Sql.noop), ("010_c.sql", Sql.noop), ("_priv.sql", Sql.noop)]) :=
  c7_discovery.2.2 _ _ (by decide)

theorem log_cases_no_bootstrap {base : List LogMsg} {m : LogMsg}
    (hv : m ∈ base ∨
      (∃ f, f ≠ bootstrapFile ∧ (m = LogMsg.executing f ∨ m = LogMsg.errorExecuting f)) ∨
      (∃ f, m = LogMsg.skipping f) ∨ m = LogMsg.executedOk)
    (hbase : ∀ x ∈ base, ∃ s, x = LogMsg.info s) :
    m ≠ LogMsg.executing bootstrapFile ∧ m ≠ LogMsg.creatingTable := by
  constructor <;> intro hm <;> subst hm
  · rcases hv with hin | ⟨f, hne, hf | hf⟩ | ⟨f, hf⟩ | hf
    · obtain ⟨s, hs⟩ := hbase _ hin
      exact absurd hs (by simp)
    · exact hne (LogMsg.executing.inj hf).symm
    · exact absurd hf (by simp)
    · exact absurd hf (by simp)
    · exact absurd hf (by simp)
  · rcases hv with hin | ⟨f, hne, hf | hf⟩ | ⟨f, hf⟩ | hf
    · obtain ⟨s, hs⟩ := hbase _ hin
      exact absurd hs (by simp)
    · exact absurd hf (by simp)
    · exact absurd hf (by simp)
    · exact absurd hf (by simp)
    · exact absurd hf (by simp)

/-- C6: bootstrap skip — when the tracking relation already exists at
the start of the run and the designated bootstrap file is present in
the source, the run never executes the bootstrap SQL (neither through
`ensureMigrationsTable` nor through the processing loop, so no
relation-already-exists error can arise from it), and a successful run
reports the bootstrap among the skipped files (`skipped ≥ 1`). -/
theorem c6_bootstrap_skip {fsd : Fsd} {st : St} {c : Sql}
    {r : Except Failure (Nat × Nat)} {st1 : St}
    (htr : st.db.tracking = true) (hlog : st.log = [])
    (hl : fsLookup fsd bootstrapFile = some c)
    (h : run fsd st = (r, st1)) :
    LogMsg.executing bootstrapFile ∉ st1.log ∧
    LogMsg.creatingTable ∉ st1.log ∧
    (∀ ex sk, r = Except.ok (ex, sk) → 1 ≤ sk) := by
  unfold run at h
  rw [connectToDatabase_eq] at h
  dsimp only at h
  rw [@ensure_eq_skip fsd
    ⟨true, (addLog st (LogMsg.info "Starting migration process...")).db,
      (addLog st (LogMsg.info "Starting migration process...")).log ++
        [LogMsg.info "Connecting to database...",
          LogMsg.info "Connected successfully!"]⟩ htr] at h
  dsimp only at h
  cases hF : getMigrationFiles fsd with
  | error f =>
      rw [hF] at h
      dsimp only at h
      have h1 := congrArg Prod.fst h
      have h2 := congrArg Prod.snd h
      dsimp at h1 h2
      subst h2
      refine ⟨?_, ?_, ?_⟩
      · intro hmem
        simp [addLog, hlog] at hmem
      · intro hmem
        simp [addLog, hlog] at hmem
      · intro ex sk hre
        rw [← h1] at hre
        exact absurd hre (by simp)
  | ok files =>
      have hbmem : bootstrapFile ∈ files := bootstrap_mem_files hl hF
      have hEmp : files.isEmpty = false := by
        rcases files with _ | ⟨a, as⟩
        · exact absurd hbmem (List.not_mem_nil _)
        · rfl
      rw [hF] at h
      dsimp only at h
      rw [hEmp] at h
      simp only [Bool.false_eq_true, if_false] at h
      rw [@getExecuted_eq_tracking fsd files
        (addLog ⟨true, (addLog st (LogMsg.info "Starting migration process...")).db,
          (addLog st (LogMsg.info "Starting migration process...")).log ++
            [LogMsg.info "Connecting to database...",
              LogMsg.info "Connected successfully!"]⟩
          (LogMsg.info "Found migration file(s)")) htr hEmp] at h
      dsimp only at h
      rcases hP : processMigrationFiles fsd
          ((addLog ⟨true, (addLog st (LogMsg.info "Starting migration process...")).db,
            (addLog st (LogMsg.info "Starting migration process...")).log ++
              [LogMsg.info "Connecting to database...",
                LogMsg.info "Connected successfully!"]⟩
            (LogMsg.info "Found migration file(s)")).db.records.filter
              (fun r => decide (r ∈ files)))
          files 0 0
          (addLog ⟨true, (addLog st (LogMsg.info "Starting migration process...")).db,
            (addLog st (LogMsg.info "Starting migration process...")).log ++
              [LogMsg.info "Connecting to database...",
                LogMsg.info "Connected successfully!"]⟩
            (LogMsg.info "Found migration file(s)")) with ⟨rP, st5⟩
      rw [hP] at h
      have hplog := process_log hP htr
      have hbase : ∀ x ∈ (addLog ⟨true,
          (addLog st (LogMsg.info "Starting migration process...")).db,
          (addLog st (LogMsg.info "Starting migration process...")).log ++
            [LogMsg.info "Connecting to database...",
              LogMsg.info "Connected successfully!"]⟩
          (LogMsg.info "Found migration file(s)")).log, ∃ s, x = LogMsg.info s := by
        intro x hx
        simp [addLog, hlog] at hx
        rcases hx with rfl | rfl | rfl | rfl <;> exact ⟨_, rfl⟩
      have hkey : ∀ m ∈ st5.log,
          m ≠ LogMsg.executing bootstrapFile ∧ m ≠ LogMsg.creatingTable :=
        fun m hm => log_cases_no_bootstrap (hplog m hm) hbase
      cases rP with
      | ok p =>
          rcases p with ⟨exP, skP⟩
          dsimp only at h
          have h1 := congrArg Prod.fst h
          have h2 := congrArg Prod.snd h
          dsimp at h1 h2
          subst h2
          refine ⟨?_, ?_, ?_⟩
          · intro hmem
            simp only [printSummary, addLog, List.mem_append] at hmem
            rcases hmem with hm | hm
            · exact (hkey _ hm).1 rfl
            · simp at hm
          · intro hmem
            simp only [printSummary, addLog, List.mem_append] at hmem
            rcases hmem with hm | hm
            · exact (hkey _ hm).2 rfl
            · simp at hm
          · intro ex sk hre
            rw [← h1] at hre
            have h3 := Except.ok.inj hre
            have h4 := process_bootstrap_skipped hP hbmem htr
            have h5 : skP = sk := congrArg Prod.snd h3
            omega
      | error e0 =>
          dsimp only at h
          have h1 := congrArg Prod.fst h
          have h2 := congrArg Prod.snd h
          dsimp at h1 h2
          subst h2
          refine ⟨?_, ?_, ?_⟩
          · intro hmem
            exact (hkey _ hmem).1 rfl
          · intro hmem
            exact (hkey _ hmem).2 rfl
          · intro ex sk hre
            rw [← h1] at hre
            exact absurd hre (by simp)

/-- C6 witnessed: running over a database that already has the
tracking relation, with the bootstrap file in the source. -/
theorem c6_witness :
    LogMsg.executing bootstrapFile ∉ (run fsFresh stTracked).2.log ∧
    LogMsg.creatingTable ∉ (run fsFresh stTracked).2.log ∧
    (∀ ex sk, (run fsFresh stTracked).1 = Except.ok (ex, sk) → 1 ≤ sk) :=
  @c6_bootstrap_skip fsFresh stTracked Sql.createTrackingTable
    ((run fsFresh stTracked).1) ((run fsFresh stTracked).2)
    (by decide) (by decide) (by decide) (by decide)

/-- C4 witnessed on the partial-failure scenario: the invalid migration
`002_bad.sql` fails with its transaction rolled back and the error log
naming the file. -/
theorem c4_witness :
    ∃ pre f post exM skM stMid stE,
      ["002_bad.sql"] = pre ++ f :: post ∧
      processMigrationFiles fsPartial [] pre 0 0 stTracked =
        (Except.ok (exM, skM), stMid) ∧
      shouldSkipMigration f [] stMid.db = false ∧
      executeMigration fsPartial f stMid = (Except.error (Failure.err "syntax error"), stE) ∧
      (⟨true, ⟨true, [], []⟩,
        [LogMsg.executing "002_bad.sql", LogMsg.errorExecuting "002_bad.sql"]⟩ : St) =
        addLog stE (LogMsg.errorExecuting f) ∧
      (⟨true, ⟨true, [], []⟩,
        [LogMsg.executing "002_bad.sql", LogMsg.errorExecuting "002_bad.sql"]⟩ : St).db =
        stMid.db ∧
      LogMsg.errorExecuting f ∈ (⟨true, ⟨true, [], []⟩,
        [LogMsg.executing "002_bad.sql", LogMsg.errorExecuting "002_bad.sql"]⟩ : St).log ∧
      (∀ post2, processMigrationFiles fsPartial [] (pre ++ f :: post2) 0 0 stTracked =
        (Except.error (Failure.err "syntax error"),
          ⟨true, ⟨true, [], []⟩,
            [LogMsg.executing "002_bad.sql", LogMsg.errorExecuting "002_bad.sql"]⟩)) :=
  @c4_failure_atomic fsPartial [] ["002_bad.sql"] 0 0 stTracked
    (Failure.err "syntax error")
    ⟨true, ⟨true, [], []⟩,
      [LogMsg.executing "002_bad.sql", LogMsg.errorExecuting "002_bad.sql"]⟩
    (by decide)
